import Mathlib

/-!
Shallow embedding of the account-history fetch cache in
`src/providers/accounts/history.tsx` (TheLoneRonin/explorer), together with
theorems settling the specification claims about it.

TypeScript `undefined`-able values become `Option`; JS booleans become `Bool`;
JS arrays become `List`; the `slot` number is an `Int` (the code only ever
stores `Number(tag)` of a decimal tag or the sentinel `-1`).
-/

set_option linter.unusedVariables false

/-- One fetched record (`FetchedInformation extends ConfirmedSignatureInfo`):
the code populates `err`, `memo`, `signature`, `slot` and the continuation
`cursor`. -/
structure FetchedInformation where
  err : Option String
  memo : Option String
  signature : String
  slot : Int
  cursor : String
deriving DecidableEq, Repr

/-- Per-key aggregate `AccountHistory = { fetched, foundOldest }`. -/
structure AccountHistory where
  fetched : List FetchedInformation
  foundOldest : Bool
deriving DecidableEq, Repr

/-- `HistoryUpdate = { history?, before? }`. -/
structure HistoryUpdate where
  history : Option AccountHistory
  before : Option String
deriving DecidableEq, Repr

/-- `combineFetched(fetched, current, before)` from history.tsx lines 34-48:
if `current === undefined` return `fetched`; if `current` is non-empty and the
cursor of its last element `===` `before`, return `current.concat(fetched)`;
otherwise return `fetched`.  (`before` may be `undefined`, in which case the
strict equality with a string cursor is false.) -/
def combineFetched (fetched : List FetchedInformation)
    (current : Option (List FetchedInformation))
    (before : Option String) : List FetchedInformation :=
  match current with
  | none => fetched
  | some cur =>
    match cur.getLast? with
    | none => fetched
    | some lastRec =>
      if some lastRec.cursor = before then cur ++ fetched else fetched

/-- `reconcile(history, update)` from history.tsx lines 50-63:
if `update?.history === undefined` return `history`; otherwise build
`{ fetched: combineFetched(update.history.fetched, history?.fetched,
update?.before), foundOldest: update?.history?.foundOldest ||
history?.foundOldest || false }`. -/
def reconcile (history : Option AccountHistory)
    (update : Option HistoryUpdate) : Option AccountHistory :=
  match update with
  | none => history
  | some u =>
    match u.history with
    | none => history
    | some uh =>
      some
        { fetched := combineFetched uh.fetched (history.map (·.fetched)) u.before
          foundOldest :=
            uh.foundOldest || (match history with
              | some h => h.foundOldest
              | none => false) || false }

/-- Modelled from the spec: the fetch lifecycle status that `providers/cache`
(imported but not part of the snippet) exposes as `FetchStatus`:
`Fetching | Fetched | FetchFailed`. -/
inductive FetchStatus where
  | Fetching
  | Fetched
  | FetchFailed
deriving DecidableEq, Repr

/-- One dispatched `ActionType.Update` action, as `fetchAccountHistory`
builds it: `{ type: Update, status, key, url, data? }` (the constant `type`
tag is omitted). -/
structure UpdateAction where
  status : FetchStatus
  key : String
  url : String
  data : Option HistoryUpdate
deriving DecidableEq, Repr

/-- One tag `{ name, value }` on a Solarweave block node. -/
structure BlockTag where
  name : String
  value : String
deriving DecidableEq, Repr

/-- The node of a block returned by `RetrieveAccount`: a list of tags. -/
structure BlockNode where
  tags : List BlockTag
deriving DecidableEq, Repr

/-- A block returned by `RetrieveAccount`: a node and a continuation cursor. -/
structure SolarweaveBlock where
  node : BlockNode
  cursor : String
deriving DecidableEq, Repr

/-- The JS dictionary build `tags[tag.name] = tag.value` followed by lookup:
the value of the LAST tag with the given name, if any. -/
def tagLookup (tags : List BlockTag) (name : String) : Option String :=
  (tags.reverse.find? (fun t => t.name == name)).map (·.value)

/-- Decimal digit accumulator: `some` of the value of the digit string, or
`none` when a non-digit character appears. -/
def decNatAux : List Char → Nat → Option Nat
  | [], acc => some acc
  | c :: cs, acc =>
    if c.isDigit then decNatAux cs (acc * 10 + (c.toNat - '0'.toNat)) else none

/-- JS `Number(s)` restricted to the non-negative decimal-integer strings this
development evaluates it on; other strings (on which JS yields `NaN` or a
negative/float value) are out of scope and mapped to 0. -/
def jsToNumber (s : String) : Int :=
  match decNatAux s.toList 0 with
  | some n => (n : Int)
  | none => 0

/-- Normalization of one block into a record, history.tsx lines 110-123:
`err: null, memo: null, signature: tags.defaultSignature ?
tags.defaultSignature : ''`, `slot: tags.slot ? Number(tags.slot) : -1`,
`cursor: Block.cursor`.  JS truthiness on a string is non-emptiness. -/
def normalizeBlock (b : SolarweaveBlock) : FetchedInformation :=
  { err := none
    memo := none
    signature :=
      match tagLookup b.node.tags "defaultSignature" with
      | some s => if s = "" then "" else s
      | none => ""
    slot :=
      match tagLookup b.node.tags "slot" with
      | some s => if s = "" then -1 else jsToNumber s
      | none => -1
    cursor := b.cursor }

/-- The options record passed to `fetchAccountHistory`:
`{ before?: string; start?: number; limit: number }`. -/
structure FetchOptions where
  before : Option String
  start : Option Nat
  limit : Nat
deriving DecidableEq, Repr

/-- `fetchAccountHistory` (history.tsx lines 86-150) as a pure function of the
key, url, options and the outcome of the `RetrieveAccount` call (`.ok` with
the block list, or `.error` when the provider throws).  Its value is the list
of dispatched actions, in dispatch order: first the `Fetching` status update,
then the completion update carrying `{ history, before: options?.before }`.
On success `foundOldest = fetched.length < options.limit`; on failure
`history` stays `undefined` and the status is `FetchFailed`.  The local
`startingIndex = options.start ? options.start : 0` is kept (it is dead code
in the source as well). -/
def fetchAccountHistory (key url : String) (options : FetchOptions)
    (blocksResult : Except Unit (List SolarweaveBlock)) : List UpdateAction :=
  let firstAction : UpdateAction :=
    { status := FetchStatus.Fetching, key := key, url := url, data := none }
  let completion : FetchStatus × Option AccountHistory :=
    match blocksResult with
    | Except.ok Blocks =>
      let startingIndex : Nat :=
        match options.start with
        | some s => if s = 0 then 0 else s
        | none => 0
      let fetched := Blocks.map normalizeBlock
      (FetchStatus.Fetched,
        some { fetched := fetched
               foundOldest := fetched.length < options.limit })
    | Except.error _ => (FetchStatus.FetchFailed, none)
  [firstAction,
    { status := completion.1, key := key, url := url
      data := some { history := completion.2, before := options.before } }]

/-- Modelled from the spec: the cache entry shape `Cache.CacheEntry` of the
missing `providers/cache` module — a History plus a fetch status; the trigger
only reads `entry?.data`. -/
structure CacheEntry where
  status : FetchStatus
  data : Option AccountHistory
deriving DecidableEq, Repr

/-- The trigger returned by `useFetchAccountHistory` (history.tsx lines
186-199), as the fetch options it issues, or `none` when it returns without
fetching: with `before = state.entries[key]`, if `!refresh &&
before?.data?.fetched && before.data.fetched.length > 0` then — no-op when
`foundOldest`, otherwise fetch `{ before: lastCursor, start: length,
limit: 5 }` — else fetch `{ limit: 5 }`. -/
def triggerFetch (entry : Option CacheEntry) (refresh : Bool) :
    Option FetchOptions :=
  let firstPage : FetchOptions := { before := none, start := none, limit := 5 }
  match entry with
  | none => some firstPage
  | some e =>
    match e.data with
    | none => some firstPage
    | some d =>
      if refresh then some firstPage
      else if h : 0 < d.fetched.length then
        if d.foundOldest then none
        else
          some { before := some ((d.fetched.getLast (List.length_pos.mp h)).cursor)
                 start := some d.fetched.length
                 limit := 5 }
      else some firstPage

/-- The fetched list carried by the last dispatched action, if any: the list
the store's reducer will hand to `reconcile` as `update.history.fetched`. -/
def dispatchedFetched (actions : List UpdateAction) :
    Option (List FetchedInformation) :=
  match actions.getLast? with
  | none => none
  | some a =>
    match a.data with
    | none => none
    | some d => d.history.map (·.fetched)

/-- The records are sorted descending by the ordering hint `slot`
(each slot is ≥ the next one). -/
def descendingBySlot : List FetchedInformation → Bool
  | [] => true
  | [_] => true
  | a :: b :: rest => decide (b.slot ≤ a.slot) && descendingBySlot (b :: rest)

/-- Concrete record with cursor "c5", used in witnesses. -/
def rC1a : FetchedInformation :=
  { err := none, memo := none, signature := "s1", slot := 1, cursor := "c5" }

/-- Concrete record with cursor "c6", used in witnesses. -/
def rC1b : FetchedInformation :=
  { err := none, memo := none, signature := "s2", slot := 2, cursor := "c6" }

/-- C1: when the existing fetched sequence is non-empty and its last element's
cursor equals the update's `before` cursor, `combineFetched` (and hence
`reconcile`) returns the existing sequence with the incoming sequence
appended: result = existing ++ incoming. -/
theorem c1_continuity_append (prior uh : AccountHistory) (b : String)
    (lr : FetchedInformation) (u : HistoryUpdate)
    (hlast : prior.fetched.getLast? = some lr)
    (hcur : lr.cursor = b)
    (hh : u.history = some uh) (hb : u.before = some b) :
    combineFetched uh.fetched (some prior.fetched) (some b) =
      prior.fetched ++ uh.fetched ∧
    (reconcile (some prior) (some u)).map (·.fetched) =
      some (prior.fetched ++ uh.fetched) := by
  have hcomb : combineFetched uh.fetched (some prior.fetched) (some b) =
      prior.fetched ++ uh.fetched := by
    simp [combineFetched, hlast, hcur]
  exact ⟨hcomb, by simp [reconcile, hh, hb, hcomb]⟩

/-- Witness for C1 at a concrete continuity input. -/
theorem c1_continuity_append_witness :
    combineFetched [rC1b] (some [rC1a]) (some "c5") = [rC1a] ++ [rC1b] ∧
    (reconcile (some { fetched := [rC1a], foundOldest := false })
        (some { history := some { fetched := [rC1b], foundOldest := false }
                before := some "c5" })).map (·.fetched) =
      some ([rC1a] ++ [rC1b]) :=
  c1_continuity_append
    { fetched := [rC1a], foundOldest := false }
    { fetched := [rC1b], foundOldest := false } "c5" rC1a
    { history := some { fetched := [rC1b], foundOldest := false }
      before := some "c5" }
    (by simp) (by decide) rfl rfl

/-- C2: `combineFetched` returns the incoming sequence unchanged when the
existing sequence is undefined, and returns the incoming sequence alone —
discarding the existing records — when the existing sequence is empty or its
last element's cursor differs from `before`. -/
theorem c2_replace_on_mismatch (incoming : List FetchedInformation)
    (before : Option String) :
    combineFetched incoming none before = incoming ∧
    ∀ existing : List FetchedInformation,
      (existing = [] ∨
        ∀ lr, existing.getLast? = some lr → before ≠ some lr.cursor) →
      combineFetched incoming (some existing) before = incoming := by
  refine ⟨rfl, fun existing h => ?_⟩
  rcases hx : existing.getLast? with _ | lr
  · simp [combineFetched, hx]
  · rcases h with h | h
    · subst h
      simp at hx
    · have hne := h lr hx
      simp only [combineFetched, hx]
      rw [if_neg (fun hc => hne hc.symm)]

/-- Witness for C2 at concrete undefined-existing and mismatch inputs. -/
theorem c2_replace_on_mismatch_witness :
    combineFetched [rC1b] none (some "WRONG") = [rC1b] ∧
    combineFetched [rC1b] (some [rC1a]) (some "WRONG") = [rC1b] :=
  ⟨(c2_replace_on_mismatch [rC1b] (some "WRONG")).1,
   (c2_replace_on_mismatch [rC1b] (some "WRONG")).2 [rC1a]
     (Or.inr (by intro lr hlr; simp at hlr; subst hlr; decide))⟩

/-- C3: once the prior history has `foundOldest = true`, any reconcile whose
update carries a history (even with `foundOldest = false`) yields
`foundOldest = true`: the flag is a monotonic OR. -/
theorem c3_found_oldest_monotonic (prior : AccountHistory) (u : HistoryUpdate)
    (uh : AccountHistory)
    (hfo : prior.foundOldest = true) (hh : u.history = some uh) :
    reconcile (some prior) (some u) =
      some { fetched := combineFetched uh.fetched (some prior.fetched) u.before
             foundOldest := true } := by
  simp [reconcile, hh, hfo]

/-- Witness for C3: an update with `foundOldest = false` against a prior with
`foundOldest = true` still yields `true`. -/
theorem c3_found_oldest_monotonic_witness :
    reconcile (some { fetched := [], foundOldest := true })
        (some { history := some { fetched := [rC1b], foundOldest := false }
                before := none }) =
      some { fetched := combineFetched [rC1b] (some []) none
             foundOldest := true } :=
  c3_found_oldest_monotonic
    { fetched := [], foundOldest := true }
    { history := some { fetched := [rC1b], foundOldest := false }, before := none }
    { fetched := [rC1b], foundOldest := false } rfl rfl

/-- C4: when the provider call throws, `fetchAccountHistory` dispatches a
`FetchFailed` update whose `data.history` is absent, and `reconcile` of an
absent-history update returns the prior history unchanged — so a failed fetch
preserves previously fetched records and records status `FetchFailed`. -/
theorem c4_failure_preserves_history (prior : Option AccountHistory)
    (key url : String) (options : FetchOptions) (e : Unit) :
    fetchAccountHistory key url options (Except.error e) =
      [{ status := FetchStatus.Fetching, key := key, url := url, data := none },
       { status := FetchStatus.FetchFailed, key := key, url := url
         data := some { history := none, before := options.before } }] ∧
    reconcile prior (some { history := none, before := options.before }) =
      prior :=
  ⟨rfl, rfl⟩

/-- C5: when the cache entry has a non-empty fetched sequence and
`foundOldest = true`, a trigger with `refresh` absent/false issues no fetch
and dispatches nothing. -/
theorem c5_no_fetch_when_fully_paginated (e : CacheEntry) (d : AccountHistory)
    (hd : e.data = some d) (hlen : 0 < d.fetched.length)
    (hfo : d.foundOldest = true) :
    triggerFetch (some e) false = none := by
  simp [triggerFetch, hd, hlen, hfo]

/-- Witness for C5 at a concrete fully-paginated entry. -/
theorem c5_no_fetch_when_fully_paginated_witness :
    triggerFetch
      (some { status := FetchStatus.Fetched
              data := some { fetched := [rC1a], foundOldest := true } })
      false = none :=
  c5_no_fetch_when_fully_paginated
    { status := FetchStatus.Fetched
      data := some { fetched := [rC1a], foundOldest := true } }
    { fetched := [rC1a], foundOldest := true } rfl (by decide) rfl

/-- C6: if `refresh` is true or there is no prior entry with a non-empty
fetched sequence, the trigger issues a first-page fetch with no `before`
cursor and limit 5; otherwise (non-empty prior, `foundOldest` false) it
issues a fetch with `before` equal to the last record's cursor and limit 5. -/
theorem c6_trigger_strategies (entry : Option CacheEntry) (refresh : Bool) :
    ((refresh = true ∨
        ∀ e, entry = some e → ∀ d, e.data = some d → d.fetched = []) →
      triggerFetch entry refresh =
        some { before := none, start := none, limit := 5 }) ∧
    (∀ e d lr, entry = some e → e.data = some d → refresh = false →
      d.foundOldest = false → d.fetched.getLast? = some lr →
      triggerFetch entry refresh =
        some { before := some lr.cursor
               start := some d.fetched.length
               limit := 5 }) := by
  constructor
  · intro h
    match entry with
    | none => simp [triggerFetch]
    | some e =>
      rcases hd : e.data with _ | d
      · simp [triggerFetch, hd]
      · rcases h with h | h
        · subst h
          simp [triggerFetch, hd]
        · have hempty : d.fetched = [] := h e rfl d hd
          simp [triggerFetch, hd, hempty]
  · intro e d lr hentry hdata hrefresh hfo hlast
    subst hentry
    subst hrefresh
    have hne : d.fetched ≠ [] := by
      intro h0
      rw [h0] at hlast
      simp at hlast
    have hlen : 0 < d.fetched.length := List.length_pos.mpr hne
    have hgl : ∀ h : d.fetched ≠ [], d.fetched.getLast h = lr := by
      intro h
      rw [List.getLast?_eq_getLast d.fetched h] at hlast
      exact Option.some_inj.mp hlast
    simp [triggerFetch, hdata, hlen, hfo, hgl]

/-- Witness for C6 at a concrete absent entry (first-page strategy) and a
concrete non-empty, not-fully-paginated entry (next-page strategy). -/
theorem c6_trigger_strategies_witness :
    triggerFetch none false =
      some { before := none, start := none, limit := 5 } ∧
    triggerFetch
        (some { status := FetchStatus.Fetched
                data := some { fetched := [rC1a], foundOldest := false } })
        false =
      some { before := some "c5", start := some 1, limit := 5 } := by
  constructor
  · exact (c6_trigger_strategies none false).1 (Or.inr (by intro e h; cases h))
  · have h2 := (c6_trigger_strategies
      (some { status := FetchStatus.Fetched
              data := some { fetched := [rC1a], foundOldest := false } })
      false).2
      { status := FetchStatus.Fetched
        data := some { fetched := [rC1a], foundOldest := false } }
      { fetched := [rC1a], foundOldest := false } rC1a rfl rfl rfl rfl (by simp)
    simpa using h2

/-- Either branch of `combineFetched` on a defined existing list: the result
is the incoming list alone, or the existing list with the incoming appended. -/
theorem combineFetched_eq_or (fetched current : List FetchedInformation)
    (before : Option String) :
    combineFetched fetched (some current) before = fetched ∨
    combineFetched fetched (some current) before = current ++ fetched := by
  rcases hx : current.getLast? with _ | lr
  · exact Or.inl (by simp [combineFetched, hx])
  · by_cases hc : some lr.cursor = before
    · exact Or.inr (by simp [combineFetched, hx, hc])
    · exact Or.inl (by simp [combineFetched, hx, hc])

/-- The fetched list of the history produced by reconciling a present prior
with a present update (empty if reconcile were to yield nothing). -/
def reconciledFetched (prior : AccountHistory) (u : HistoryUpdate) :
    List FetchedInformation :=
  ((reconcile (some prior) (some u)).map (·.fetched)).getD []

/-- Concrete record used in the C7 counterexample. -/
def rDup : FetchedInformation :=
  { err := none, memo := none, signature := "sd", slot := 7, cursor := "cd" }

/-- C7 counterexample: re-applying a page that is already the existing tail
(same record, matching `before` cursor) duplicates it — the merged fetched
sequence is `[rDup, rDup]`, in which the record identity `rDup` appears
twice, so the merge is NOT duplicate-free in general. -/
theorem c7_counterexample_duplicate :
    (reconcile (some { fetched := [rDup], foundOldest := false })
        (some { history := some { fetched := [rDup], foundOldest := false }
                before := some "cd" })).map (·.fetched) =
      some [rDup, rDup] ∧
    ¬ ([rDup, rDup].Nodup) := by
  constructor
  · rfl
  · decide

/-- C7 amended: the merged fetched sequence is either the incoming page alone
or the existing sequence followed by the incoming page (so the relative order
of the records kept is preserved), and it is duplicate-free whenever the
existing and incoming sequences are each duplicate-free and share no record —
but `reconcile` itself performs no dedup, so a shared record appears twice. -/
theorem c7_merge_order_and_conditional_nodup (prior : AccountHistory)
    (u : HistoryUpdate) (uh : AccountHistory) (hh : u.history = some uh) :
    (reconciledFetched prior u = uh.fetched ∨
      reconciledFetched prior u = prior.fetched ++ uh.fetched) ∧
    (prior.fetched.Nodup → uh.fetched.Nodup →
      (∀ x ∈ prior.fetched, x ∉ uh.fetched) →
      (reconciledFetched prior u).Nodup) := by
  have hr : reconciledFetched prior u =
      combineFetched uh.fetched (some prior.fetched) u.before := by
    simp [reconciledFetched, reconcile, hh]
  constructor
  · rw [hr]
    exact combineFetched_eq_or uh.fetched prior.fetched u.before
  · intro h1 h2 hdisj
    rw [hr]
    rcases combineFetched_eq_or uh.fetched prior.fetched u.before with h | h
    · rw [h]
      exact h2
    · rw [h]
      exact List.Nodup.append h1 h2 (fun x hx1 hx2 => hdisj x hx1 hx2)

/-- Witness for the amended C7 at a concrete disjoint continuity input. -/
theorem c7_merge_order_and_conditional_nodup_witness :
    (reconciledFetched { fetched := [rC1a], foundOldest := false }
        { history := some { fetched := [rC1b], foundOldest := false }
          before := some "c5" } = [rC1b] ∨
      reconciledFetched { fetched := [rC1a], foundOldest := false }
        { history := some { fetched := [rC1b], foundOldest := false }
          before := some "c5" } = [rC1a] ++ [rC1b]) ∧
    (reconciledFetched { fetched := [rC1a], foundOldest := false }
        { history := some { fetched := [rC1b], foundOldest := false }
          before := some "c5" }).Nodup :=
  ⟨(c7_merge_order_and_conditional_nodup
      { fetched := [rC1a], foundOldest := false }
      { history := some { fetched := [rC1b], foundOldest := false }
        before := some "c5" }
      { fetched := [rC1b], foundOldest := false } rfl).1,
   (c7_merge_order_and_conditional_nodup
      { fetched := [rC1a], foundOldest := false }
      { history := some { fetched := [rC1b], foundOldest := false }
        before := some "c5" }
      { fetched := [rC1b], foundOldest := false } rfl).2
     (by decide) (by decide) (by decide)⟩

/-- Concrete provider block with slot tag "1" and cursor "x1". -/
def blockC8a : SolarweaveBlock :=
  { node := { tags := [{ name := "slot", value := "1" }] }, cursor := "x1" }

/-- Concrete provider block with slot tag "2" and cursor "x2". -/
def blockC8b : SolarweaveBlock :=
  { node := { tags := [{ name := "slot", value := "2" }] }, cursor := "x2" }

/-- A concrete provider page whose slots ascend (1 then 2). -/
def blocksC8 : List SolarweaveBlock := [blockC8a, blockC8b]

/-- C8 counterexample: on a provider page with ascending slots, BOTH fetch
strategies (first-page options, and next-page options with a `before`
cursor) dispatch the records in provider order, and that order is not
descending by slot — so neither strategy applies the descending-by-slot sort
step the claim attributes to one of them. -/
theorem c8_counterexample_no_sort :
    dispatchedFetched (fetchAccountHistory "key" "url"
        { before := none, start := none, limit := 5 }
        (Except.ok blocksC8)) =
      some (blocksC8.map normalizeBlock) ∧
    dispatchedFetched (fetchAccountHistory "key" "url"
        { before := some "x0", start := some 2, limit := 5 }
        (Except.ok blocksC8)) =
      some (blocksC8.map normalizeBlock) ∧
    descendingBySlot (blocksC8.map normalizeBlock) = false := by
  refine ⟨rfl, rfl, by decide⟩

/-- C8 amended: neither fetch strategy sorts — for every option record (hence
for both strategies) the dispatched fetched list is exactly the provider's
blocks normalized in provider order, so the order of `fetched` is determined
entirely by provider page order. -/
theorem c8_no_strategy_sorts (key url : String) (options : FetchOptions)
    (blocks : List SolarweaveBlock) :
    dispatchedFetched (fetchAccountHistory key url options
        (Except.ok blocks)) =
      some (blocks.map normalizeBlock) := by
  rfl

/-- C9: when the prior history has `foundOldest = true` and the update's
`before` does not match the existing tail's cursor (the replace case, e.g. a
refresh), reconcile replaces the whole fetched sequence with the incoming
page yet still returns `foundOldest = true`. -/
theorem c9_replace_keeps_found_oldest (prior : AccountHistory)
    (u : HistoryUpdate) (uh : AccountHistory) (lr : FetchedInformation)
    (hfo : prior.foundOldest = true) (hh : u.history = some uh)
    (hlast : prior.fetched.getLast? = some lr)
    (hmismatch : u.before ≠ some lr.cursor) :
    reconcile (some prior) (some u) =
      some { fetched := uh.fetched, foundOldest := true } := by
  have hcomb : combineFetched uh.fetched (some prior.fetched) u.before =
      uh.fetched := by
    simp only [combineFetched, hlast]
    rw [if_neg (fun hc => hmismatch hc.symm)]
  simp [reconcile, hh, hfo, hcomb]

/-- Witness for C9: a refresh-style update (`before` absent) against a fully
paginated prior discards the old records but keeps `foundOldest = true`. -/
theorem c9_replace_keeps_found_oldest_witness :
    reconcile (some { fetched := [rC1a], foundOldest := true })
        (some { history := some { fetched := [rC1b], foundOldest := false }
                before := none }) =
      some { fetched := [rC1b], foundOldest := true } :=
  c9_replace_keeps_found_oldest
    { fetched := [rC1a], foundOldest := true }
    { history := some { fetched := [rC1b], foundOldest := false }, before := none }
    { fetched := [rC1b], foundOldest := false } rC1a rfl rfl (by simp)
    (by simp)

/-- C10: the `start` option (the dead local `startingIndex`) has no effect:
two calls to `fetchAccountHistory` agreeing on `before` and `limit` but
differing arbitrarily in `start` dispatch identical update actions. -/
theorem c10_start_has_no_effect (key url : String) (o1 o2 : FetchOptions)
    (hb : o1.before = o2.before) (hl : o1.limit = o2.limit)
    (blocksResult : Except Unit (List SolarweaveBlock)) :
    fetchAccountHistory key url o1 blocksResult =
      fetchAccountHistory key url o2 blocksResult := by
  cases blocksResult <;> simp [fetchAccountHistory, hb, hl]

/-- Witness for C10: `start` absent versus `start = 3` dispatch the same
actions on a concrete successful fetch. -/
theorem c10_start_has_no_effect_witness :
    fetchAccountHistory "key" "url" { before := none, start := none, limit := 5 }
        (Except.ok [blockC8a]) =
      fetchAccountHistory "key" "url" { before := none, start := some 3, limit := 5 }
        (Except.ok [blockC8a]) :=
  c10_start_has_no_effect "key" "url"
    { before := none, start := none, limit := 5 }
    { before := none, start := some 3, limit := 5 } rfl rfl
    (Except.ok [blockC8a])
